/-
A verification development for redi's `upload.py` (REDCap uploader).

Shallow embedding conventions:
  * Python dicts are association lists (`alookup` / `aset`), where `aset`
    replaces the first binding in place (preserving insertion order, as
    CPython dicts do) and otherwise appends.
  * An lxml element's `.text` is `Option String` (`none` when the element
    has no text content, as lxml reports for `<name/>`); an optional child
    element is an `Option` around that, so `Option (Option String)`.
  * `findtext` is modelled by `findtextD` / `findtextOpt`, following
    ElementTree semantics: a found element with `text = None` yields `""`,
    a missing element yields the default (`None` when no default given).
  * Raised Python exceptions are `Except.error`; a `try/except` that
    swallows an exception is modelled by returning the state accumulated
    up to the raise point.
  * The REDCap client is a response oracle `sendResp` (a pure function of
    the uploaded records and the overwrite flag) together with a call
    trace accumulated in the run state; the `throttle.Throttle` wrapper is
    semantically transparent (pure rate limiting), so `upload_data` is the
    oracle call plus one trace entry.
-/
import Mathlib

namespace Redi

/-! ## Python dict model -/

/-- Python dict lookup `d[k]`, on a dict modelled as an association list. -/
def alookup [DecidableEq α] : List (α × β) → α → Option β
  | [], _ => none
  | (k, v) :: t, a => if k = a then some v else alookup t a

/-- Python dict write `d[k] = v`: replace the first binding of `k` in place, else append
(CPython dicts keep the original insertion position on update). -/
def aset [DecidableEq α] : List (α × β) → α → β → List (α × β)
  | [], a, b => [(a, b)]
  | (k, v) :: t, a, b => if k = a then (k, b) :: t else (k, v) :: aset t a b

/-- Python `d.get(k, default)`. -/
def agetD [DecidableEq α] (l : List (α × β)) (a : α) (b : β) : β :=
  (alookup l a).getD b

/-- Python `list(d.keys())`. -/
def akeys (l : List (α × β)) : List α := l.map (·.1)

/-- Python `d.update(r)`: write every binding of `r`, in order, into `d`. -/
def aupdate [DecidableEq α] (d : List (α × β)) (r : List (α × β)) : List (α × β) :=
  r.foldl (fun acc kv => aset acc kv.1 kv.2) d

/-! ## XML model -/

/-- An lxml element's `.text`: `none` when the element has no text. -/
abbrev XmlText := Option String

/-- ElementTree `el.findtext(tag, default)`: the default when no child matches, `""`
when the child's text is `None`, else the text (ElementTree semantics). -/
def findtextD (child : Option XmlText) (dflt : String) : String :=
  match child with
  | none => dflt
  | some none => ""
  | some (some t) => t

/-- ElementTree `el.findtext(tag)` with no default: `None` when no child matches. -/
def findtextOpt (child : Option XmlText) : Option String :=
  match child with
  | none => none
  | some none => some ""
  | some (some t) => some t

/-- A `field` element: optional `name` child and optional `value` child,
each with optional text. -/
structure Field where
  nameElem : Option XmlText
  valueElem : Option XmlText
  deriving DecidableEq, Repr

/-- An `event` element: optional `name` child and its `field` children. -/
structure Event where
  nameElem : Option XmlText
  fields : List Field
  deriving DecidableEq, Repr

/-- A `form` element: its `name` text and its `event` children.  (The code
reads `form.xpath('name')[0].text` unguarded; the name child and its text
are assumed present.) -/
structure Form where
  name : String
  events : List Event
  deriving DecidableEq, Repr

/-- A `person` element: text of its first `study_id` child (`none` when no
such child exists; a present child is assumed to carry text), the `lab_id`
attribute, and the `all_form_events/form` children. -/
structure Person where
  study_id : Option String
  lab_id : Option String
  forms : List Form
  deriving DecidableEq, Repr

/-- Keys of an upload record are `field.findtext('name')` results, which
can be `None` when a field has no `name` child; hence `Option String`. -/
abbrev RecordDict := List (Option String × String)

/-! ## EventTransformer: `create_import_data_json` -/

/-- The dict key a field contributes: `field.findtext('name')`, which is
`None` when the field has no `name` child. -/
def fieldNameKey (f : Field) : Option String := findtextOpt f.nameElem

/-- The value a field contributes: `field.findtext('value', '')`. -/
def fieldVal (f : Field) : String := findtextD f.valueElem ""

/-- The `for field in event_field_list` loop: writes each field into the
dict and accumulates `contains_data` (`if val and not contains_data`). -/
def fieldLoop : RecordDict → Bool → List Field → RecordDict × Bool
  | d, cd, [] => (d, cd)
  | d, cd, f :: rest =>
      fieldLoop (aset d (fieldNameKey f) (fieldVal f)) (cd || (fieldVal f != "")) rest

/-- The function `create_import_data_json(import_data_dict, event_tree)`.

`docFieldNames` is the result of `root.xpath('//event/field/name')`: the
text of every `name` child of every field under any event in the whole
enclosing document (an absolute `//` xpath on an lxml element searches the
element's document, not the subtree).  Fields without a `name` child
contribute nothing to it.  Returns `(json_data, contains_data)` or the
raised exception's message. -/
def create_import_data_json (import_data_dict : RecordDict) (event : Event)
    (docFieldNames : List XmlText) : Except String (RecordDict × Bool) :=
  match findtextOpt event.nameElem with
  | none => .error "Expected non-blank element event/name"
  | some t =>
    if t = "" then .error "Expected non-blank element event/name"
    else if none ∈ docFieldNames then
      .error "Expected non-blank element event/field/name"
    else
      .ok (fieldLoop (aset import_data_dict (some "redcap_event_name") t) false event.fields)

/-- The result of `root.xpath('//event/field/name')` over the whole person tree: the
texts of all field-name elements that exist, document order. -/
def docEventFieldNames (persons : List Person) : List XmlText :=
  ((persons.map fun p =>
      ((p.forms.map fun f =>
          ((f.events.map fun e => e.fields.filterMap (·.nameElem)).flatten)).flatten)).flatten)

/-! ## RecordAggregator: `create_redcap_records` -/

/-- One element of the `blanks` list / of `import_data`:
`(study_id_key, form_name, event_name, json_data_dict)`. -/
abbrev ImportTuple := String × String × String × RecordDict

/-- The grouping key `(subject_id_key, event_name)` of one tuple. -/
def idOf (x : ImportTuple) : String × String := (x.1, x.2.2.1)

/-- The record dict of one tuple. -/
def recOf (x : ImportTuple) : RecordDict := x.2.2.2

/-- One iteration of the `for ... in import_data` loop:
`records_by_subject_and_event[subject_id_key, event_name].update(record)`
on a `defaultdict(dict)` (a missing key starts from the empty dict). -/
def aggStep (acc : List ((String × String) × RecordDict)) (x : ImportTuple) :
    List ((String × String) × RecordDict) :=
  aset acc (idOf x) (aupdate (agetD acc (idOf x) []) (recOf x))

/-- The grouped dict built by `create_redcap_records`, keys in first-seen
order as a CPython `defaultdict` keeps them. -/
def aggregateRecords (xs : List ImportTuple) : List ((String × String) × RecordDict) :=
  xs.foldl aggStep []

/-- The function `create_redcap_records(import_data)`: the grouped dict's values. -/
def create_redcap_records (xs : List ImportTuple) : List RecordDict :=
  (aggregateRecords xs).map (·.2)

/-! ## ResponseErrorParser: `handle_errors_in_redcap_xml_response` -/

/-- The error payload carried by a `RedcapError`, after
`ast.literal_eval(str(redcap_response))`: a Python dict that may carry the
`'error'` marker and a `'records'` list of string-keyed dicts (the shape
the REDCap error protocol defines; parsing the literal string itself is
outside this embedding). -/
structure RedcapResponse where
  hasError : Bool
  records : Option (List (List (String × String)))
  deriving DecidableEq, Repr

/-- The per-record error string the parser formats. -/
def error_string (record field_name value message : String) : String :=
  "Error writing to record " ++ record ++ " field " ++ field_name ++
    " Value " ++ value ++ ".Error Message: " ++ message

/-- The `for recordData in response['records']` loop.  Each iteration reads
the four keys and appends one formatted string to `report_data['errors']`;
a missing key raises `KeyError` there, so the loop stops with the strings
appended so far (`some msg` reports the raise). -/
def recordLoop : List (List (String × String)) → List String → List String × Option String
  | [], errs => (errs, none)
  | rec :: rest, errs =>
    match alookup rec "record" with
    | none => (errs, some "KeyError: record")
    | some r =>
      match alookup rec "field_name" with
      | none => (errs, some "KeyError: field_name")
      | some f =>
        match alookup rec "value" with
        | none => (errs, some "KeyError: value")
        | some v =>
          match alookup rec "message" with
          | none => (errs, some "KeyError: message")
          | some m => recordLoop rest (errs ++ [error_string r f v m])

/-- The errors list `handle_errors_in_redcap_xml_response` leaves in
`report_data` (the `except KeyError` handler only logs, keeping whatever
was appended before the raise). -/
def handledErrors (response : RedcapResponse) (errors : List String) : List String :=
  if response.hasError then
    match response.records with
    | none => errors
    | some recs => (recordLoop recs errors).1
  else errors

/-- The function `handle_errors_in_redcap_xml_response(redcap_response, report_data)`.
The whole body sits in a `try` whose `except KeyError` swallows the only
exceptions the modelled payload domain can raise (`response['records']`
on a dict without that key, and the four per-record key reads), so the
function returns normally with `True` in every case; `Except.error` would
model an uncaught raise. -/
def handle_errors_in_redcap_xml_response (response : RedcapResponse)
    (errors : List String) : Except String (List String × Bool) :=
  if response.hasError then
    match response.records with
    | none => .ok (errors, true)
    | some recs => .ok ((recordLoop recs errors).1, true)
  else .ok (errors, true)

/-! ## UploadOrchestrator: `generate_output` -/

/-- A successful REDCap response (`response['count']` is read on the bulk
path). -/
structure SendResponse where
  count : Nat
  deriving DecidableEq, Repr

/-- The REDCap client: the defining identity field name
(`redcap_client.project.def_field`) and `send_data_to_redcap` as a pure
response oracle — `.error` is a raised `RedcapError` carrying its
payload.  `throttle.Throttle` only paces calls, so `upload_data` behaves
as a direct call to this oracle. -/
structure RedcapClient where
  def_field : String
  sendResp : List RecordDict → Bool → Except RedcapResponse SendResponse

/-- One entry of `subject_details[study_id_key]`: the `'lab_id'` binding
plus the `'Total_<form>_Forms'` counters (form keys always start with
`Total_`, so they never collide with `'lab_id'`). -/
structure SubjectDetail where
  lab_id : Option String
  counters : List (String × Nat)
  deriving DecidableEq, Repr

/-- The mutable state of one `generate_output` run: `report_data['errors']`,
the two counter dicts, the dedup tracker's in-run marks
(`sent_events.mark_sent`), the deferred `blanks` list, the trace of
`upload_data` calls (records sent, overwrite flag), and the two loop
counters. -/
structure RunState where
  errors : List String
  subject_details : List (String × SubjectDetail)
  form_details : List (String × Nat)
  marks : List (String × String × String)
  blanks : List ImportTuple
  calls : List (List RecordDict × Bool)
  person_count : Nat
  event_count : Nat
  deriving DecidableEq, Repr

/-- The state `generate_output` starts from. -/
def initState : RunState :=
  { errors := [], subject_details := [], form_details := [], marks := []
    blanks := [], calls := [], person_count := 0, event_count := 0 }

/-- The query `sent_events.was_sent(study_id_key, form_name, event_name)`: `ws0` is
what the tracker held before the run; marks written during the run are
read back (read-after-write consistency). -/
def wasSent (ws0 : String → String → String → Bool) (st : RunState)
    (sid form_name event_name : String) : Bool :=
  ws0 sid form_name event_name || decide ((sid, form_name, event_name) ∈ st.marks)

/-- The call `upload_data(records, overwrite=ow)`: record the call in the trace and
consult the response oracle. -/
def uploadData (client : RedcapClient) (st : RunState) (records : List RecordDict)
    (ow : Bool) : RunState × Except RedcapResponse SendResponse :=
  ({ st with calls := st.calls ++ [(records, ow)] }, client.sendResp records ow)

/-- The increments `subject_details[study_id_key][form_key] += 1` and
`form_details[form_key] += 1`; a missing key is a `KeyError` (re-raised by
the outer `except Exception`). -/
def incrCounters (st : RunState) (sid form_key : String) : Except String RunState :=
  match alookup st.subject_details sid with
  | none => .error "KeyError: subject_details"
  | some sd =>
    match alookup sd.counters form_key with
    | none => .error "KeyError: subject form counter"
    | some n =>
      match alookup st.form_details form_key with
      | none => .error "KeyError: form_details"
      | some m =>
        .ok { st with
              subject_details :=
                aset st.subject_details sid { sd with counters := aset sd.counters form_key (n + 1) }
              form_details := aset st.form_details form_key (m + 1) }

/-- The body of the `for event in form.xpath('event')` loop.  Returns the
new state and the `break` flag (`true` when the skip-blanks branch breaks
out of the events loop); `.error` is an exception aborting the run (the
`assert`, or anything re-raised by `except Exception`). -/
def processEvent (client : RedcapClient) (ws0 : String → String → String → Bool)
    (docFieldNames : List XmlText) (skip_blanks bulk_send_blanks : Bool)
    (sid form_name form_key : String) (st : RunState) (event : Event) :
    Except String (RunState × Bool) :=
  let event_name := findtextD event.nameElem ""
  if event_name = "" then .error "Missing name for form event"
  else
    match create_import_data_json [(some client.def_field, sid)] event docFieldNames with
    | .error e => .error e
    | .ok (json_data_dict, contains_data) =>
      if wasSent ws0 st sid form_name event_name then
        if contains_data then
          match incrCounters st sid form_key with
          | .error e => .error e
          | .ok st' => .ok (st', false)
        else .ok (st, false)
      else
        if !contains_data && skip_blanks then .ok (st, true)
        else if !contains_data && bulk_send_blanks then
          .ok ({ st with blanks := st.blanks ++ [(sid, form_name, event_name, json_data_dict)] },
               false)
        else
          let st1 := { st with event_count := st.event_count + 1 }
          let sent := uploadData client st1 [json_data_dict] true
          match sent.2 with
          | .ok _ =>
            let st3 := { sent.1 with marks := sent.1.marks ++ [(sid, form_name, event_name)] }
            if contains_data then
              match incrCounters st3 sid form_key with
              | .error e => .error e
              | .ok st4 => .ok (st4, false)
            else .ok (st3, false)
          | .error payload =>
            match handle_errors_in_redcap_xml_response payload sent.1.errors with
            | .error e => .error e
            | .ok (errs, _found_error) => .ok ({ sent.1 with errors := errs }, false)

/-- The `for event in form.xpath('event')` loop itself: stop early when an
event breaks out (skip-blanks). -/
def processEvents (client : RedcapClient) (ws0 : String → String → String → Bool)
    (docFieldNames : List XmlText) (skip_blanks bulk_send_blanks : Bool)
    (sid form_name form_key : String) : RunState → List Event → Except String RunState
  | st, [] => .ok st
  | st, e :: rest =>
    match processEvent client ws0 docFieldNames skip_blanks bulk_send_blanks
        sid form_name form_key st e with
    | .error err => .error err
    | .ok (st', brk) =>
      if brk then .ok st'
      else processEvents client ws0 docFieldNames skip_blanks bulk_send_blanks
          sid form_name form_key st' rest

/-- The body of the `for form in forms` loop: derive `form_key`, lazily
initialise the per-subject entry (with the person's `lab_id`), the
per-subject form counter and the global form counter, then walk the
events. -/
def processForm (client : RedcapClient) (ws0 : String → String → String → Bool)
    (docFieldNames : List XmlText) (skip_blanks bulk_send_blanks : Bool)
    (sid : String) (lab_id : Option String) (st : RunState) (form : Form) :
    Except String RunState :=
  let form_key := "Total_" ++ form.name ++ "_Forms"
  let st1 :=
    match alookup st.subject_details sid with
    | none =>
      { st with subject_details := aset st.subject_details sid ⟨lab_id, []⟩ }
    | some _ => st
  let st2 :=
    match alookup st1.subject_details sid with
    | none => st1
    | some sd =>
      match alookup sd.counters form_key with
      | none =>
        { st1 with
          subject_details :=
            aset st1.subject_details sid { sd with counters := aset sd.counters form_key 0 } }
      | some _ => st1
  let st3 :=
    match alookup st2.form_details form_key with
    | none => { st2 with form_details := aset st2.form_details form_key 0 }
    | some _ => st2
  processEvents client ws0 docFieldNames skip_blanks bulk_send_blanks
    sid form.name form_key st3 form.events

/-- The body of the `for person in persons` loop: bump the person count,
require a `study_id` child, reset the per-person event counter, then walk
the forms. -/
def processPerson (client : RedcapClient) (ws0 : String → String → String → Bool)
    (docFieldNames : List XmlText) (skip_blanks bulk_send_blanks : Bool)
    (st : RunState) (p : Person) : Except String RunState :=
  let st0 := { st with person_count := st.person_count + 1 }
  match p.study_id with
  | none => .error "Expected a valid value for study_id"
  | some sid =>
    p.forms.foldlM
      (processForm client ws0 docFieldNames skip_blanks bulk_send_blanks sid p.lab_id)
      { st0 with event_count := 0 }

/-- The grouping key `(study_id_key, form_name, event_name)` of a deferred
blank, as marked sent after a successful bulk send. -/
def sentKeyOf (b : ImportTuple) : String × String × String := (b.1, b.2.1, b.2.2.1)

/-- The `if blanks:` tail of `generate_output`: merge the deferred blanks
with `create_redcap_records`, send them as one bulk call, and on success
mark every deferred triple sent; a `RedcapError` goes to
`handle_errors_in_redcap_xml_response` and nothing is marked. -/
def flushBlanks (client : RedcapClient) (st : RunState) : Except String RunState :=
  if st.blanks.isEmpty then .ok st
  else
    let records := create_redcap_records st.blanks
    let sent := uploadData client st records true
    match sent.2 with
    | .ok _ => .ok { sent.1 with marks := sent.1.marks ++ st.blanks.map sentKeyOf }
    | .error payload =>
      match handle_errors_in_redcap_xml_response payload sent.1.errors with
      | .error e => .error e
      | .ok (errs, _) => .ok { sent.1 with errors := errs }

/-- The `report_data` dictionary `generate_output` returns. -/
structure Report where
  errors : List String
  total_subjects : Nat
  form_details : List (String × Nat)
  subject_details : List (String × SubjectDetail)
  deriving Repr

/-- The function `generate_output(person_tree, redcap_client, rate_limit, sent_events,
skip_blanks, bulk_send_blanks)`.  The rate limit only paces calls and is
dropped; `ws0` is the dedup tracker's pre-run contents. -/
def generate_output (persons : List Person) (client : RedcapClient)
    (ws0 : String → String → String → Bool)
    (skip_blanks bulk_send_blanks : Bool) : Except String Report :=
  let docFieldNames := docEventFieldNames persons
  match persons.foldlM
      (processPerson client ws0 docFieldNames skip_blanks bulk_send_blanks) initState with
  | .error e => .error e
  | .ok st =>
    match flushBlanks client st with
    | .error e => .error e
    | .ok st' =>
      .ok { errors := st'.errors, total_subjects := st'.person_count
            form_details := st'.form_details, subject_details := st'.subject_details }

/-! ## Concrete example data used by claim witnesses and counterexamples -/

/-- An event with subject id pre-seeded, one non-empty field. -/
def evC2 : Event := ⟨some (some "E1"), [⟨some (some "f"), some (some "v")⟩]⟩

/-- The mapping `create_import_data_json` builds for `evC2`. -/
def mC2 : RecordDict := [(some "sid", "S1"), (some "redcap_event_name", "E1"), (some "f", "v")]

/-- The event of the C9 counterexample: a valid event name, but its only
field lacks a `name` child entirely (`<field><value>x</value></field>`). -/
def eC9 : Event := ⟨some (some "E"), [⟨none, some (some "x")⟩]⟩

/-- A person tree containing only `eC9`; its document-scope field-name
query `//event/field/name` selects nothing, because the field has no
`name` element to select. -/
def pC9 : Person := ⟨some "S", none, [⟨"F", [eC9]⟩]⟩

/-- Substring containment, used to state that the formatted error string
carries the record id, field name, value and message. -/
def strContains (s sub : String) : Prop := ∃ a b, s = a ++ sub ++ b

/-- A well-formed failure payload with one record failure. -/
def c8Payload : RedcapResponse :=
  ⟨true, some [[("record", "R1"), ("field_name", "F"), ("value", "V"), ("message", "M")]]⟩

/-- A payload with the `error` marker but no `records` key. -/
def c8NoRecords : RedcapResponse := ⟨true, none⟩

/-- A records list with two well-formed entries followed by an entry
missing the `value` key. -/
def c10Records : List (List (String × String)) :=
  [[("record", "R1"), ("field_name", "F1"), ("value", "V1"), ("message", "M1")],
   [("record", "R2"), ("field_name", "F2"), ("value", "V2"), ("message", "M2")],
   [("record", "R3"), ("field_name", "F3"), ("message", "M3")]]

/-- The payload holding `c10Records`. -/
def c10Payload : RedcapResponse := ⟨true, some c10Records⟩

/-! ## Concrete data for the orchestrator witnesses -/

/-- A dedup tracker that has sent nothing. -/
def wsFalse : String → String → String → Bool := fun _ _ _ => false

/-- A dedup tracker that reports everything already sent. -/
def wsTrue : String → String → String → Bool := fun _ _ _ => true

/-- A client whose sends always succeed. -/
def okClientW : RedcapClient := ⟨"study_id", fun _ _ => .ok ⟨1⟩⟩

/-- An event with one non-empty field. -/
def evW : Event := ⟨some (some "E1"), [⟨some (some "f"), some (some "v")⟩]⟩

/-- The record `create_import_data_json` builds for `evW` seeded with
subject `S1`. -/
def jsonW : RecordDict :=
  [(some "study_id", "S1"), (some "redcap_event_name", "E1"), (some "f", "v")]

/-- A blank event (its only field value is empty). -/
def evBW : Event := ⟨some (some "E0"), [⟨some (some "f"), some (some "")⟩]⟩

/-- The record built for `evBW`. -/
def jsonBW : RecordDict :=
  [(some "study_id", "S1"), (some "redcap_event_name", "E0"), (some "f", "")]

/-- Subject-detail entry with an initialised form counter. -/
def sdW : SubjectDetail := ⟨none, [("Total_F_Forms", 0)]⟩

/-- A run state with subject `S1` and form `F` counters initialised. -/
def stW : RunState :=
  ⟨[], [("S1", sdW)], [("Total_F_Forms", 0)], [], [], [], 1, 0⟩

/-- A run state holding two deferred blanks sharing `("S1", "E1")`. -/
def stB : RunState :=
  ⟨[], [], [], [],
   [("S1", "FA", "E1", [(some "a", "")]), ("S1", "FB", "E1", [(some "b", "")])], [], 1, 0⟩

/-! ## Dict lemmas -/

theorem alookup_aset_self [DecidableEq α] (l : List (α × β)) (a : α) (b : β) :
    alookup (aset l a b) a = some b := by
  induction l with
  | nil => simp [aset, alookup]
  | cons kv t ih =>
    obtain ⟨k, v⟩ := kv
    by_cases h : k = a
    · simp [aset, h, alookup]
    · simp [aset, h, alookup, ih]

theorem alookup_aset_ne [DecidableEq α] (l : List (α × β)) (a a' : α) (b : β)
    (h : a ≠ a') : alookup (aset l a b) a' = alookup l a' := by
  induction l with
  | nil => simp [aset, alookup, h]
  | cons kv t ih =>
    obtain ⟨k, v⟩ := kv
    by_cases hk : k = a
    · subst hk
      have he : aset ((k, v) :: t) k b = (k, b) :: t := by simp [aset]
      rw [he]
      simp [alookup, h]
    · have he : aset ((k, v) :: t) a b = (k, v) :: aset t a b := by simp [aset, hk]
      rw [he]
      simp [alookup, ih]

theorem mem_akeys_aset [DecidableEq α] (l : List (α × β)) (a : α) (b : β) (x : α) :
    x ∈ akeys (aset l a b) ↔ x ∈ akeys l ∨ x = a := by
  induction l with
  | nil => simp [aset, akeys]
  | cons kv t ih =>
    obtain ⟨k, v⟩ := kv
    by_cases hk : k = a
    · subst hk
      have he : aset ((k, v) :: t) k b = (k, b) :: t := by simp [aset]
      rw [he]
      rw [show akeys ((k, b) :: t) = k :: akeys t from rfl,
          show akeys ((k, v) :: t) = k :: akeys t from rfl]
      simp only [List.mem_cons]
      tauto
    · have he : aset ((k, v) :: t) a b = (k, v) :: aset t a b := by simp [aset, hk]
      rw [he]
      rw [show akeys ((k, v) :: aset t a b) = k :: akeys (aset t a b) from rfl,
          show akeys ((k, v) :: t) = k :: akeys t from rfl]
      simp only [List.mem_cons, ih]
      tauto

theorem nodup_akeys_aset [DecidableEq α] (l : List (α × β)) (a : α) (b : β)
    (h : (akeys l).Nodup) : (akeys (aset l a b)).Nodup := by
  induction l with
  | nil => simp [aset, akeys]
  | cons kv t ih =>
    obtain ⟨k, v⟩ := kv
    rw [show akeys ((k, v) :: t) = k :: akeys t from rfl, List.nodup_cons] at h
    by_cases hk : k = a
    · subst hk
      have he : aset ((k, v) :: t) k b = (k, b) :: t := by simp [aset]
      rw [he, show akeys ((k, b) :: t) = k :: akeys t from rfl]
      exact List.nodup_cons.mpr h
    · have he : aset ((k, v) :: t) a b = (k, v) :: aset t a b := by simp [aset, hk]
      rw [he, show akeys ((k, v) :: aset t a b) = k :: akeys (aset t a b) from rfl,
          List.nodup_cons]
      refine ⟨?_, ih h.2⟩
      rw [mem_akeys_aset]
      push_neg
      exact ⟨h.1, hk⟩

theorem alookup_eq_none_iff [DecidableEq α] (l : List (α × β)) (a : α) :
    alookup l a = none ↔ a ∉ akeys l := by
  induction l with
  | nil => simp [alookup, akeys]
  | cons kv t ih =>
    obtain ⟨k, v⟩ := kv
    rw [show akeys ((k, v) :: t) = k :: akeys t from rfl]
    by_cases hk : k = a
    · subst hk
      simp [alookup]
    · rw [show alookup ((k, v) :: t) a = alookup t a from by simp [alookup, hk]]
      simp only [List.mem_cons, ih]
      constructor
      · intro hna hmem
        rcases hmem with rfl | hmem
        · exact hk rfl
        · exact hna hmem
      · exact fun hna hmem => hna (.inr hmem)

/-! ## EventTransformer lemmas -/

theorem fieldLoop_snd (fs : List Field) (d : RecordDict) (cd : Bool) :
    (fieldLoop d cd fs).2 = true ↔ cd = true ∨ ∃ f ∈ fs, fieldVal f ≠ "" := by
  induction fs generalizing d cd with
  | nil => simp [fieldLoop]
  | cons f rest ih =>
    rw [fieldLoop, ih]
    simp only [Bool.or_eq_true, bne_iff_ne, ne_eq, List.mem_cons]
    constructor
    · rintro ((h | h) | ⟨g, hg, hgv⟩)
      · exact .inl h
      · exact .inr ⟨f, .inl rfl, h⟩
      · exact .inr ⟨g, .inr hg, hgv⟩
    · rintro (h | ⟨g, (rfl | hg), hgv⟩)
      · exact .inl (.inl h)
      · exact .inl (.inr hgv)
      · exact .inr ⟨g, hg, hgv⟩

/-- C2: for every event accepted by `create_import_data_json`, the returned
`contains_data` flag is true iff at least one of the event's field values
(`field.findtext('value', '')`) is a non-empty string; the pre-seeded
subject-id entry of the mapping is never consulted (the fold starts from
`false` over the fields alone), so an all-blank event yields `false` and an
event with a non-empty field value yields `true`. -/
theorem claim_C2 (d : RecordDict) (e : Event) (doc : List XmlText)
    (m : RecordDict) (flag : Bool)
    (h : create_import_data_json d e doc = .ok (m, flag)) :
    flag = true ↔ ∃ f ∈ e.fields, fieldVal f ≠ "" := by
  unfold create_import_data_json at h
  split at h
  · exact absurd h (by simp)
  · rename_i t heq
    split at h
    · exact absurd h (by simp)
    · split at h
      · exact absurd h (by simp)
      · replace h : fieldLoop (aset d (some "redcap_event_name") t) false e.fields = (m, flag) :=
          Except.ok.inj h
        have h2 := fieldLoop_snd e.fields (aset d (some "redcap_event_name") t) false
        rw [h] at h2
        simpa using h2

/-- Witness for C2 at a concrete event with one non-empty field value. -/
theorem claim_C2_witness :
    create_import_data_json [(some "sid", "S1")] evC2 [] = .ok (mC2, true)
    ∧ (true = true ↔ ∃ f ∈ evC2.fields, fieldVal f ≠ "") :=
  ⟨rfl, claim_C2 [(some "sid", "S1")] evC2 [] mC2 true rfl⟩

/-- C9 counterexample: the claim says the transformer fails with a
validation error for a field whose name is missing, but a field with no
`name` element at all is never selected by `//event/field/name`, so
`create_import_data_json` returns successfully (storing the value under
the `None` key). -/
theorem claim_C9_counterexample :
    (eC9.fields.map Field.nameElem = [none])
    ∧ docEventFieldNames [pC9] = []
    ∧ create_import_data_json [] eC9 (docEventFieldNames [pC9]) =
        .ok ([(some "redcap_event_name", "E"), (none, "x")], true) :=
  ⟨rfl, rfl, rfl⟩

/-- C9 as amended: `create_import_data_json` fails with a validation error
iff the event's name is missing or blank (`findtext('name', '') = ''`), or
some field anywhere in the enclosing document scope has a `name` element
whose text is missing; a field lacking a `name` element entirely escapes
the check, and when neither condition holds it does not raise. -/
theorem claim_C9 (d : RecordDict) (e : Event) (doc : List XmlText) :
    (∃ err, create_import_data_json d e doc = .error err) ↔
      (findtextD e.nameElem "" = "" ∨ none ∈ doc) := by
  obtain ⟨ne, fs⟩ := e
  rcases ne with _ | (_ | t)
  · simp [create_import_data_json, findtextOpt, findtextD]
  · simp [create_import_data_json, findtextOpt, findtextD]
  · by_cases ht : t = ""
    · simp [create_import_data_json, findtextOpt, findtextD, ht]
    · by_cases hd : none ∈ doc
      · simp [create_import_data_json, findtextOpt, findtextD, ht, hd]
      · simp [create_import_data_json, findtextOpt, findtextD, ht, hd]

/-! ## ResponseErrorParser claims -/

/-- C7: for any payload in the modelled domain (a dict with optional
`error` marker and optional `records` list of string-keyed dicts), the
parser returns normally — a payload without the `error` marker, without
the `records` key, or with a record entry missing an expected key is
logged and swallowed — and the returned flag is `True` in every case,
regardless of whether errors were found. -/
theorem claim_C7 (r : RedcapResponse) (errs : List String) :
    handle_errors_in_redcap_xml_response r errs = .ok (handledErrors r errs, true) := by
  cases hr : r.hasError
  · simp [handle_errors_in_redcap_xml_response, handledErrors, hr]
  · cases hrec : r.records <;>
      simp [handle_errors_in_redcap_xml_response, handledErrors, hr, hrec]

/-- C8: on the well-formed payload the parser appends exactly one error
string, containing `R1`, `F`, `V` and `M`, to the report's errors list; on
a payload missing the `records` key the errors list is unchanged. -/
theorem claim_C8 (errs : List String) :
    handle_errors_in_redcap_xml_response c8Payload errs =
      .ok (errs ++ [error_string "R1" "F" "V" "M"], true)
    ∧ strContains (error_string "R1" "F" "V" "M") "R1"
    ∧ strContains (error_string "R1" "F" "V" "M") "F"
    ∧ strContains (error_string "R1" "F" "V" "M") "V"
    ∧ strContains (error_string "R1" "F" "V" "M") "M"
    ∧ handle_errors_in_redcap_xml_response c8NoRecords errs = .ok (errs, true) :=
  ⟨rfl,
   ⟨"Error writing to record ", " field F Value V.Error Message: M", by decide⟩,
   ⟨"Error writing to record R1 field ", " Value V.Error Message: M", by decide⟩,
   ⟨"Error writing to record R1 field F Value ", ".Error Message: M", by decide⟩,
   ⟨"Error writing to record R1 field F Value V.Error Message: ", "", by decide⟩,
   rfl⟩

/-- C10: error recording is not atomic — with two well-formed record
failures followed by an entry missing the `value` key, the `KeyError`
stops the loop but the two strings already appended remain in the report's
errors list when the parser returns. -/
theorem claim_C10 (errs : List String) :
    (c10Records.map fun rec => (alookup rec "value").isSome) = [true, true, false]
    ∧ handle_errors_in_redcap_xml_response c10Payload errs =
        .ok (errs ++ [error_string "R1" "F1" "V1" "M1", error_string "R2" "F2" "V2" "M2"],
             true) := by
  refine ⟨rfl, ?_⟩
  show Except.ok
      ((errs ++ [error_string "R1" "F1" "V1" "M1"]) ++ [error_string "R2" "F2" "V2" "M2"], true)
    = _
  rw [List.append_assoc]
  rfl

/-! ## RecordAggregator lemmas and claim -/

theorem alookup_foldl_aggStep (xs : List ImportTuple)
    (acc : List ((String × String) × RecordDict)) (k : String × String) :
    alookup (xs.foldl aggStep acc) k =
      if (xs.filter fun y => decide (idOf y = k)) = [] then alookup acc k
      else some (((xs.filter fun y => decide (idOf y = k)).map recOf).foldl aupdate
                   (agetD acc k [])) := by
  induction xs generalizing acc with
  | nil => simp
  | cons x xs ih =>
    rw [List.foldl_cons, ih]
    by_cases hx : idOf x = k
    · have hfil : ((x :: xs).filter fun y => decide (idOf y = k)) =
          x :: (xs.filter fun y => decide (idOf y = k)) := by
        simp [List.filter_cons, hx]
      have hself : alookup (aggStep acc x) k = some (aupdate (agetD acc k []) (recOf x)) := by
        simp only [aggStep]
        rw [hx]
        exact alookup_aset_self acc k _
      have hget : agetD (aggStep acc x) k [] = aupdate (agetD acc k []) (recOf x) := by
        rw [agetD, hself]
        rfl
      rw [hfil, if_neg (List.cons_ne_nil _ _), List.map_cons, List.foldl_cons]
      by_cases hxs : (xs.filter fun y => decide (idOf y = k)) = []
      · rw [if_pos hxs, hself, hxs]
        simp
      · rw [if_neg hxs, hget]
    · have hfil : ((x :: xs).filter fun y => decide (idOf y = k)) =
          (xs.filter fun y => decide (idOf y = k)) := by
        simp [List.filter_cons, hx]
      have hlk : alookup (aggStep acc x) k = alookup acc k := by
        simp only [aggStep]
        exact alookup_aset_ne _ _ _ _ hx
      have hget : agetD (aggStep acc x) k [] = agetD acc k [] := by
        rw [agetD, hlk]
        rfl
      rw [hfil, hlk, hget]

theorem nodup_akeys_foldl_aggStep (xs : List ImportTuple)
    (acc : List ((String × String) × RecordDict)) (h : (akeys acc).Nodup) :
    (akeys (xs.foldl aggStep acc)).Nodup := by
  induction xs generalizing acc with
  | nil => exact h
  | cons x xs ih => exact ih _ (nodup_akeys_aset _ _ _ h)

/-- C6: `create_redcap_records` produces exactly one merged mapping per
distinct `(subject_id, event_name)` identity — the grouped dict's keys are
duplicate-free and are exactly the identities occurring in the input — and
the merged mapping for an identity is the in-order dict-update fold of
precisely the input mappings bearing that identity (so mappings with
different identities never merge, and later mappings overwrite same-named
fields of earlier ones).  Concretely, merging `A = {x:1}` then `B = {x:2}`
for the same identity yields `{x:2}`, and the reversed input order yields
`{x:1}`. -/
theorem claim_C6 (xs : List ImportTuple) :
    (akeys (aggregateRecords xs)).Nodup
    ∧ (∀ k : String × String,
        alookup (aggregateRecords xs) k =
          if (xs.filter fun y => decide (idOf y = k)) = [] then none
          else some (((xs.filter fun y => decide (idOf y = k)).map recOf).foldl aupdate []))
    ∧ (∀ k : String × String, k ∈ akeys (aggregateRecords xs) ↔ ∃ x ∈ xs, idOf x = k)
    ∧ create_redcap_records xs = (aggregateRecords xs).map (·.2)
    ∧ create_redcap_records
        [("1", "FA", "E", [(some "x", "1")]), ("1", "FB", "E", [(some "x", "2")])] =
        [[(some "x", "2")]]
    ∧ create_redcap_records
        [("1", "FB", "E", [(some "x", "2")]), ("1", "FA", "E", [(some "x", "1")])] =
        [[(some "x", "1")]] := by
  have hchar : ∀ k : String × String,
      alookup (aggregateRecords xs) k =
        if (xs.filter fun y => decide (idOf y = k)) = [] then none
        else some (((xs.filter fun y => decide (idOf y = k)).map recOf).foldl aupdate []) := by
    intro k
    have := alookup_foldl_aggStep xs [] k
    simpa [aggregateRecords, alookup, agetD] using this
  refine ⟨nodup_akeys_foldl_aggStep xs [] (by simp [akeys]), hchar, ?_, rfl, rfl, rfl⟩
  intro k
  constructor
  · intro hk
    have hne : alookup (aggregateRecords xs) k ≠ none := by
      intro heq
      exact (alookup_eq_none_iff _ _).mp heq hk
    by_cases hf : (xs.filter fun y => decide (idOf y = k)) = []
    · rw [hchar k, if_pos hf] at hne
      exact absurd rfl hne
    · obtain ⟨x, hx⟩ := List.exists_mem_of_ne_nil _ hf
      have hxmem := List.mem_of_mem_filter hx
      have hxp := List.of_mem_filter hx
      simp only [decide_eq_true_eq] at hxp
      exact ⟨x, hxmem, hxp⟩
  · rintro ⟨x, hxs, hid⟩
    have hf : (xs.filter fun y => decide (idOf y = k)) ≠ [] := by
      intro h0
      have := List.filter_eq_nil_iff.mp h0 x hxs
      simp [hid] at this
    have hne : alookup (aggregateRecords xs) k ≠ none := by
      rw [hchar k, if_neg hf]
      simp
    by_contra hk
    exact hne ((alookup_eq_none_iff _ _).mpr hk)

/-! ## UploadOrchestrator claims -/

/-- The parser always returns normally with flag `True` (helper shared by
the orchestrator claims). -/
theorem handle_errors_eq (r : RedcapResponse) (errs : List String) :
    handle_errors_in_redcap_xml_response r errs = .ok (handledErrors r errs, true) := by
  cases hr : r.hasError
  · simp [handle_errors_in_redcap_xml_response, handledErrors, hr]
  · cases hrec : r.records <;>
      simp [handle_errors_in_redcap_xml_response, handledErrors, hr, hrec]

/-- C1: for an event that is not already sent and is not diverted by the
skip-blanks or bulk-blanks options, exactly one send of the single record
with `overwrite=True` is issued; on success the `(subject, form, event)`
triple is marked sent and, iff the data is non-blank, both counters are
incremented by one; on a `RedcapError` the payload goes to
`handle_errors_in_redcap_xml_response`, the triple is not marked, the
counters stay, and the event loop continues (no abort, no break). -/
theorem claim_C1 (client : RedcapClient) (ws0 : String → String → String → Bool)
    (doc : List XmlText) (skip_blanks bulk_send_blanks : Bool)
    (sid form_name form_key : String) (st : RunState) (e : Event)
    (json : RecordDict) (cd : Bool) (sd : SubjectDetail) (n m : Nat)
    (hname : ¬ findtextD e.nameElem "" = "")
    (hcreate : create_import_data_json [(some client.def_field, sid)] e doc = .ok (json, cd))
    (hws : wasSent ws0 st sid form_name (findtextD e.nameElem "") = false)
    (hskip : (!cd && skip_blanks) = false)
    (hbulk : (!cd && bulk_send_blanks) = false)
    (hsd : alookup st.subject_details sid = some sd)
    (hn : alookup sd.counters form_key = some n)
    (hm : alookup st.form_details form_key = some m) :
    (∀ r, client.sendResp [json] true = .ok r →
      (cd = true →
        processEvent client ws0 doc skip_blanks bulk_send_blanks sid form_name form_key st e =
          .ok ({ st with
                 event_count := st.event_count + 1
                 calls := st.calls ++ [([json], true)]
                 marks := st.marks ++ [(sid, form_name, findtextD e.nameElem "")]
                 subject_details :=
                   aset st.subject_details sid
                     { sd with counters := aset sd.counters form_key (n + 1) }
                 form_details := aset st.form_details form_key (m + 1) }, false))
      ∧ (cd = false →
        processEvent client ws0 doc skip_blanks bulk_send_blanks sid form_name form_key st e =
          .ok ({ st with
                 event_count := st.event_count + 1
                 calls := st.calls ++ [([json], true)]
                 marks := st.marks ++ [(sid, form_name, findtextD e.nameElem "")] }, false)))
    ∧ (∀ p, client.sendResp [json] true = .error p →
      processEvent client ws0 doc skip_blanks bulk_send_blanks sid form_name form_key st e =
        .ok ({ st with
               event_count := st.event_count + 1
               calls := st.calls ++ [([json], true)]
               errors := handledErrors p st.errors }, false)) := by
  constructor
  · intro r hr
    constructor
    · intro hcd
      subst hcd
      simp [processEvent, uploadData, incrCounters, hname, hcreate, hws, hsd, hn, hm, hr]
    · intro hcd
      subst hcd
      simp only [Bool.not_false, Bool.true_and] at hskip hbulk
      simp [processEvent, uploadData, hname, hcreate, hws, hskip, hbulk, hr]
  · intro p hp
    rcases hcd : cd with _ | _
    · subst hcd
      simp only [Bool.not_false, Bool.true_and] at hskip hbulk
      simp [processEvent, uploadData, hname, hcreate, hws, hskip, hbulk, hp, handle_errors_eq]
    · subst hcd
      simp [processEvent, uploadData, hname, hcreate, hws, hp, handle_errors_eq]

/-- C3: for an event whose `(subject, form, event)` triple the dedup
tracker already reports sent, no send happens (the call trace, marks,
blanks and errors are untouched); when the transformed data is non-blank
the per-subject and per-form counters are still incremented by one, when
it is blank the state is returned unchanged; either way the loop continues
with the next event. -/
theorem claim_C3 (client : RedcapClient) (ws0 : String → String → String → Bool)
    (doc : List XmlText) (skip_blanks bulk_send_blanks : Bool)
    (sid form_name form_key : String) (st : RunState) (e : Event)
    (json : RecordDict) (cd : Bool) (sd : SubjectDetail) (n m : Nat)
    (hname : ¬ findtextD e.nameElem "" = "")
    (hcreate : create_import_data_json [(some client.def_field, sid)] e doc = .ok (json, cd))
    (hws : wasSent ws0 st sid form_name (findtextD e.nameElem "") = true)
    (hsd : alookup st.subject_details sid = some sd)
    (hn : alookup sd.counters form_key = some n)
    (hm : alookup st.form_details form_key = some m) :
    (cd = true →
      processEvent client ws0 doc skip_blanks bulk_send_blanks sid form_name form_key st e =
        .ok ({ st with
               subject_details :=
                 aset st.subject_details sid
                   { sd with counters := aset sd.counters form_key (n + 1) }
               form_details := aset st.form_details form_key (m + 1) }, false))
    ∧ (cd = false →
      processEvent client ws0 doc skip_blanks bulk_send_blanks sid form_name form_key st e =
        .ok (st, false)) := by
  constructor
  · intro hcd
    subst hcd
    simp [processEvent, incrCounters, hname, hcreate, hws, hsd, hn, hm]
  · intro hcd
    subst hcd
    simp [processEvent, hname, hcreate, hws]

/-- C4: with `skip_blanks` enabled, when an event of a form is blank and
not previously sent, the remainder of the form's events is abandoned
entirely — the events loop returns the state unchanged, so the blank event
and everything after it is never sent and never counted, and processing
moves on to the next form. -/
theorem claim_C4 (client : RedcapClient) (ws0 : String → String → String → Bool)
    (doc : List XmlText) (bulk_send_blanks : Bool)
    (sid form_name form_key : String) (st : RunState) (e : Event)
    (rest : List Event) (json : RecordDict)
    (hname : ¬ findtextD e.nameElem "" = "")
    (hcreate : create_import_data_json [(some client.def_field, sid)] e doc = .ok (json, false))
    (hws : wasSent ws0 st sid form_name (findtextD e.nameElem "") = false) :
    processEvents client ws0 doc true bulk_send_blanks sid form_name form_key st (e :: rest) =
      .ok st := by
  simp [processEvents, processEvent, hname, hcreate, hws]

/-- C5: when deferred blanks exist at the end of the run they are merged
by `create_redcap_records` and sent as exactly one bulk call with
`overwrite=True`; on success every deferred `(subject, form, event)`
triple is marked sent, on a `RedcapError` none is and the payload goes to
the parser.  Two blank form-events sharing `(subject="S1", event="E1")`
merge into exactly one uploaded record. -/
theorem claim_C5 (client : RedcapClient) (st : RunState) (h : st.blanks ≠ []) :
    (∀ r, client.sendResp (create_redcap_records st.blanks) true = .ok r →
      flushBlanks client st =
        .ok { st with
              calls := st.calls ++ [(create_redcap_records st.blanks, true)]
              marks := st.marks ++ st.blanks.map sentKeyOf })
    ∧ (∀ p, client.sendResp (create_redcap_records st.blanks) true = .error p →
      flushBlanks client st =
        .ok { st with
              calls := st.calls ++ [(create_redcap_records st.blanks, true)]
              errors := handledErrors p st.errors })
    ∧ (create_redcap_records
        [("S1", "FA", "E1", [(some "a", "")]), ("S1", "FB", "E1", [(some "b", "")])]).length
        = 1 := by
  have hne : st.blanks.isEmpty = false := List.isEmpty_eq_false.mpr h
  refine ⟨?_, ?_, rfl⟩
  · intro r hr
    simp [flushBlanks, hne, uploadData, hr]
  · intro p hp
    simp [flushBlanks, hne, uploadData, hp, handle_errors_eq]

/-- Witness for C1: a fresh non-blank event is sent once with overwrite,
marked, and counted. -/
theorem claim_C1_witness :
    processEvent okClientW wsFalse [] false false "S1" "F" "Total_F_Forms" stW evW =
      .ok (⟨[], [("S1", ⟨none, [("Total_F_Forms", 1)]⟩)], [("Total_F_Forms", 1)],
            [("S1", "F", "E1")], [], [([jsonW], true)], 1, 1⟩, false) := by
  have h := claim_C1 okClientW wsFalse [] false false "S1" "F" "Total_F_Forms" stW evW
      jsonW true sdW 0 0 (by decide) rfl rfl rfl rfl rfl rfl rfl
  have h2 := (h.1 ⟨1⟩ rfl).1 rfl
  rw [h2]
  rfl

/-- Witness for C3: an already-sent non-blank event is counted but not
re-sent. -/
theorem claim_C3_witness :
    processEvent okClientW wsTrue [] false false "S1" "F" "Total_F_Forms" stW evW =
      .ok (⟨[], [("S1", ⟨none, [("Total_F_Forms", 1)]⟩)], [("Total_F_Forms", 1)],
            [], [], [], 1, 0⟩, false) := by
  have h := claim_C3 okClientW wsTrue [] false false "S1" "F" "Total_F_Forms" stW evW
      jsonW true sdW 0 0 (by decide) rfl rfl rfl rfl rfl
  have h2 := h.1 rfl
  rw [h2]
  rfl

/-- Witness for C4: a form with events `[blank, non-blank, blank]` under
`skip_blanks` leaves the state untouched. -/
theorem claim_C4_witness :
    processEvents okClientW wsFalse [] true false "S1" "F" "Total_F_Forms" stW
      (evBW :: [evW, evBW]) = .ok stW :=
  claim_C4 okClientW wsFalse [] false "S1" "F" "Total_F_Forms" stW evBW [evW, evBW]
    jsonBW (by decide) rfl rfl

/-- Witness for C5: two deferred blanks sharing `("S1", "E1")` go out as
one merged record and both triples are marked sent. -/
theorem claim_C5_witness :
    flushBlanks okClientW stB =
      .ok (⟨[], [], [], [("S1", "FA", "E1"), ("S1", "FB", "E1")],
            [("S1", "FA", "E1", [(some "a", "")]), ("S1", "FB", "E1", [(some "b", "")])],
            [([[(some "a", ""), (some "b", "")]], true)], 1, 0⟩) := by
  have h := claim_C5 okClientW stB (by decide)
  have h2 := h.1 ⟨1⟩ rfl
  rw [h2]
  rfl

end Redi
